import Mathlib

set_option maxHeartbeats 1000000

/- Verification development for the vertebrae segmentation API
   (src/vertebrae-api): the COCO-style mask RLE codec, the per-model
   detection formatting, the visualization renderer, the model factory
   initialization protocol, and the HTTP handler input guards.

   Conventions of the embedding:
   - binary masks are grids of Bool (true = pixel value 1, false = 0),
     stored as a list of rows;
   - Python floats are embedded as rationals;
   - fallible Python code (raising exceptions) is embedded with Except;
   - external collaborators (pycocotools, OpenCV, NumPy RNG) are not part
     of the repository source; where a claim depends on them they are
     modelled from the spec, with a doc comment saying so. -/

namespace Vertebrae

/-! ### Mask RLE codec

The repository functions `encode_mask_to_rle` / `decode_rle_to_mask`
(src/vertebrae-api/app/utils.py) delegate the actual run-length coding to
`pycocotools.mask`, which is not part of this repository.  The codec below
is therefore modelled from the spec, section 4.1. -/

/-- Modelled from the spec: run lengths of a flat pixel sequence,
"alternating run lengths starting with the run of 0s".  `cur` is the value
of the run being counted and `n` its length so far. -/
def runsAux : Bool → Nat → List Bool → List Nat
  | _, n, [] => [n]
  | cur, n, x :: xs => if x = cur then runsAux cur (n + 1) xs else n :: runsAux x 1 xs

/-- Modelled from the spec: the run-length sequence of a flat mask, with the
first count always counting pixels of value 0. -/
def runLengths (l : List Bool) : List Nat := runsAux false 0 l

/-- Modelled from the spec: expand alternating run lengths back into the
flat pixel sequence, starting with the value `b`. -/
def runsToList : Bool → List Nat → List Bool
  | _, [] => []
  | b, n :: ns => List.replicate n b ++ runsToList (!b) ns

/-- Modelled from the spec: column-major (Fortran order) flattening of a
mask grid, "scanning each column top-to-bottom before moving to the next
column". -/
def colMajor (m : List (List Bool)) : List Bool :=
  ((List.range (m.headD []).length).map fun j => m.map fun row => row.getD j false).flatten

/-- Modelled from the spec: rebuild an `h × w` grid from a column-major
flat pixel sequence (inverse of `colMajor`). -/
def gridOfFlat (h w : Nat) (flat : List Bool) : List (List Bool) :=
  (List.range h).map fun i => (List.range w).map fun j => flat.getD (j * h + i) false

/-- The ten decimal digit characters, in value order. -/
def decimalDigits : List Char :=
  ['0', '1', '2', '3', '4', '5', '6', '7', '8', '9']

/-- Decimal digit character of a value below ten. -/
def digitChar (n : Nat) : Char := decimalDigits.getD n '0'

/-- Value of a decimal digit character; `none` on any other character. -/
def digitVal (c : Char) : Option Nat := decimalDigits.indexOf? c

/-- Decimal rendering of a natural number, most significant digit first. -/
def natToDigits (n : Nat) : List Char :=
  if n < 10 then [digitChar n]
  else natToDigits (n / 10) ++ [digitChar (n % 10)]
decreasing_by exact Nat.div_lt_self (by omega) (by omega)

/-- Left-to-right decimal parser with accumulator; `none` on a non-digit. -/
def parseDigitsAux : Nat → List Char → Option Nat
  | acc, [] => some acc
  | acc, c :: cs =>
    match digitVal c with
    | some v => parseDigitsAux (acc * 10 + v) cs
    | none => none

/-- Parse a nonempty all-digit character sequence as a natural number. -/
def parseNat : List Char → Option Nat
  | [] => none
  | l => parseDigitsAux 0 l

/-- Modelled from the spec: the ASCII counts field, "a human-readable/
ASCII-safe encoding of alternating run lengths" — decimal numbers separated
by single spaces. -/
def printCounts : List Nat → List Char
  | [] => []
  | [n] => natToDigits n
  | n :: rest => natToDigits n ++ ' ' :: printCounts rest

/-- Split a character sequence at the space characters (accumulator holds
the current piece reversed). -/
def splitStrAux : List Char → List Char → List (List Char)
  | cur, [] => [cur.reverse]
  | cur, c :: cs => if c = ' ' then cur.reverse :: splitStrAux [] cs else splitStrAux (c :: cur) cs

/-- Split a character sequence at the space characters. -/
def splitSpaces (l : List Char) : List (List Char) := splitStrAux [] l

/-- Parse each space-separated piece as a decimal number; `none` if any
piece fails to parse. -/
def parsePieces : List (List Char) → Option (List Nat)
  | [] => some []
  | p :: ps =>
    match parseNat p, parsePieces ps with
    | some n, some ns => some (n :: ns)
    | _, _ => none

/-- Modelled from the spec: parse the textual counts field back into a
run-length sequence; `none` when it "cannot be parsed". -/
def parseCounts (l : List Char) : Option (List Nat) := parsePieces (splitSpaces l)

/-- An RLE value as produced by `encode_mask_to_rle` in app/utils.py:
`size` is `[height, width]` and `counts` is an ASCII string. -/
structure RLE where
  size : Nat × Nat
  counts : List Char
deriving DecidableEq

/-- The codec failure of the spec error taxonomy (`MalformedRLEError`). -/
inductive CodecError
  | malformedRLE
deriving DecidableEq

/-- Modelled from the spec (section 4.1) for app/utils.py
`encode_mask_to_rle`: flatten the binary mask in column-major order, take
the alternating run lengths starting with the run of 0s, and render them as
an ASCII counts string next to the `[h, w]` size. -/
def encode_mask_to_rle (m : List (List Bool)) : RLE :=
  ⟨(m.length, (m.headD []).length), printCounts (runLengths (colMajor m))⟩

/-- Modelled from the spec (section 4.1) for app/utils.py
`decode_rle_to_mask`: fails with `MalformedRLEError` if `counts` cannot be
parsed or the implied total length differs from `size[0] * size[1]`;
otherwise rebuilds the binary grid from the run lengths. -/
def decode_rle_to_mask (r : RLE) : Except CodecError (List (List Bool)) :=
  match parseCounts r.counts with
  | none => .error .malformedRLE
  | some cnts =>
    if cnts.sum = r.size.1 * r.size.2 then
      .ok (gridOfFlat r.size.1 r.size.2 (runsToList false cnts))
    else .error .malformedRLE

/-! ### Class table and detection formatting

From src/vertebrae-api/app/config.py (`Settings.vertebrae_classes`) and the
`format_detections` methods of app/models/maskrcnn.py and
app/models/yolo.py. -/

/-- The fixed 17-entry vertebra class table of `Settings.vertebrae_classes`
in app/config.py. -/
def vertebrae_classes : List String :=
  ["T1", "T2", "T3", "T4", "T5", "T6",
   "T7", "T8", "T9", "T10", "T11", "T12",
   "L1", "L2", "L3", "L4", "L5"]

/-- A formatted bounding box, the `bbox` dictionary of a detection. -/
structure BBoxOut where
  x1 : ℚ
  y1 : ℚ
  x2 : ℚ
  y2 : ℚ
deriving DecidableEq

/-- The `mask` field of a formatted detection: either an RLE dictionary
(Mask R-CNN path) or a raw 2D array (`mask.tolist()`, YOLO path). -/
inductive MaskField
  | rleMask (r : RLE)
  | rawGrid (g : List (List Bool))
deriving DecidableEq

/-- Whether a mask field is an RLE dictionary. -/
def MaskField.isRLEDict : MaskField → Bool
  | .rleMask _ => true
  | .rawGrid _ => false

/-- One formatted detection dictionary as built by `format_detections`. -/
structure DetectionOut where
  bbox : BBoxOut
  mask : MaskField
  score : ℚ
  class_name : String
  class_id : Nat
deriving DecidableEq

/-- A raw prediction batch as returned by the models `predict` methods:
parallel sequences of boxes (each a list `[x1, y1, x2, y2]`), scores, class
indices and binary masks, plus the reported detection count. -/
structure Predictions where
  boxes : List (List ℚ)
  scores : List ℚ
  classes : List Nat
  masks : List (List (List Bool))
  num_detections : Nat
deriving DecidableEq

/-- Failures of `format_detections`.  Python raises `IndexError` both for a
parallel sequence shorter than `num_detections` and for a class index
beyond the class table; the spec error taxonomy names the latter
`ClassIndexOutOfRangeError`, so the two are distinguished here. -/
inductive FormatError
  | indexError
  | classIndexOutOfRange
deriving DecidableEq

/-- The loop body of `MaskRCNNModel.format_detections`
(app/models/maskrcnn.py, lines 133-158) at index `i`: read
`boxes[i]`, `scores[i]`, `classes[i]`, `masks[i]`, resolve
`settings.vertebrae_classes[class_id]`, encode the mask to RLE, and build
the detection dictionary. -/
def MaskRCNNModel.detection_at (p : Predictions) (i : Nat) : Except FormatError DetectionOut :=
  match p.boxes[i]?, p.scores[i]?, p.classes[i]?, p.masks[i]? with
  | some box, some score, some class_id, some mask =>
    match vertebrae_classes[class_id]? with
    | none => .error .classIndexOutOfRange
    | some class_name =>
      match box with
      | x1 :: y1 :: x2 :: y2 :: _ =>
        .ok ⟨⟨x1, y1, x2, y2⟩, .rleMask (encode_mask_to_rle mask), score, class_name, class_id⟩
      | _ => .error .indexError
  | _, _, _, _ => .error .indexError

/-- The loop body of `YOLOModel.format_detections` (app/models/yolo.py,
lines 146-168) at index `i`: identical to the Mask R-CNN loop body except
that the `mask` field is `mask.tolist()` — the raw 2D array, with no RLE
encoding. -/
def YOLOModel.detection_at (p : Predictions) (i : Nat) : Except FormatError DetectionOut :=
  match p.boxes[i]?, p.scores[i]?, p.classes[i]?, p.masks[i]? with
  | some box, some score, some class_id, some mask =>
    match vertebrae_classes[class_id]? with
    | none => .error .classIndexOutOfRange
    | some class_name =>
      match box with
      | x1 :: y1 :: x2 :: y2 :: _ =>
        .ok ⟨⟨x1, y1, x2, y2⟩, .rawGrid mask, score, class_name, class_id⟩
      | _ => .error .indexError
  | _, _, _, _ => .error .indexError

/-- Run a per-index builder over a list of indices, collecting the results
in order; the first failure aborts the loop and no detection list is
returned (the Python loop raises, discarding the local list). -/
def formatRange (f : Nat → Except FormatError DetectionOut) :
    List Nat → Except FormatError (List DetectionOut)
  | [] => .ok []
  | i :: is =>
    match f i with
    | .error e => .error e
    | .ok d =>
      match formatRange f is with
      | .error e => .error e
      | .ok ds => .ok (d :: ds)

/-- `MaskRCNNModel.format_detections` (app/models/maskrcnn.py, lines
116-160): `for i in range(predictions["num_detections"])`, building one
detection per index. -/
def MaskRCNNModel.format_detections (p : Predictions) : Except FormatError (List DetectionOut) :=
  formatRange (MaskRCNNModel.detection_at p) (List.range p.num_detections)

/-- `YOLOModel.format_detections` (app/models/yolo.py, lines 129-170). -/
def YOLOModel.format_detections (p : Predictions) : Except FormatError (List DetectionOut) :=
  formatRange (YOLOModel.detection_at p) (List.range p.num_detections)

/-- The detection dictionary the Mask R-CNN loop body builds at index `i`
of a well-formed batch, written with total accessors; used to state the
formatting theorems. -/
def MaskRCNNModel.expected_at (p : Predictions) (i : Nat) : DetectionOut :=
  let box := p.boxes.getD i []
  ⟨⟨box.getD 0 0, box.getD 1 0, box.getD 2 0, box.getD 3 0⟩,
   .rleMask (encode_mask_to_rle (p.masks.getD i [])),
   p.scores.getD i 0,
   vertebrae_classes.getD (p.classes.getD i 0) "",
   p.classes.getD i 0⟩

/-- The detection dictionary the YOLO loop body builds at index `i` of a
well-formed batch: as for Mask R-CNN but with the raw 2D mask. -/
def YOLOModel.expected_at (p : Predictions) (i : Nat) : DetectionOut :=
  let box := p.boxes.getD i []
  ⟨⟨box.getD 0 0, box.getD 1 0, box.getD 2 0, box.getD 3 0⟩,
   .rawGrid (p.masks.getD i []),
   p.scores.getD i 0,
   vertebrae_classes.getD (p.classes.getD i 0) "",
   p.classes.getD i 0⟩

/-- A placeholder detection, used only as the default of `List.getD` in
theorem statements. -/
def dfltDetection : DetectionOut :=
  ⟨⟨0, 0, 0, 0⟩, .rawGrid [], 0, "", 0⟩

/-! ### Visualization renderer

`draw_predictions_on_image` (app/utils.py, lines 122-192).  Images are
grids of BGR pixels.  The OpenCV drawing primitives and the NumPy global
random generator are external collaborators; their pixel-level effects are
modelled from the spec (section 4.3) as deterministic, shape-preserving
grid transformations. -/

/-- A BGR pixel. -/
abbrev Color := Nat × Nat × Nat

/-- An image: a list of pixel rows. -/
abbrev ImageG := List (List Color)

/-- The state of the process-wide NumPy random generator. -/
abbrev Rng := Nat

/-- Modelled from the spec: `np.random.seed(42)` resets the global
generator to a state that depends only on the seed. -/
def npRandomSeed (n : Nat) : Rng := n

/-- Modelled from the spec: one draw of `np.random.randint(0, 255)`; the
Mersenne Twister is abstracted to a linear congruential step, which is
faithful for the determinism and seeding properties at stake. -/
def rngNext (r : Rng) : Nat × Rng :=
  let r2 := (r * 1103515245 + 12345) % 4294967296
  (r2 / 65536 % 255, r2)

/-- Modelled from the spec: `tuple(map(int, np.random.randint(0, 255, 3)))`
as three successive generator draws. -/
def randColor (r : Rng) : Color × Rng :=
  let (a, r1) := rngNext r
  let (b, r2) := rngNext r1
  let (c, r3) := rngNext r2
  ((a, b, c), r3)

/-- Insert a string into a list kept sorted (by the underlying character
codes) and without duplicates. -/
def insertKey (s : String) : List String → List String
  | [] => [s]
  | t :: ts =>
    if s.data = t.data then t :: ts
    else if s.data < t.data then s :: t :: ts
    else t :: insertKey s ts

/-- Modelled from the spec: iteration order over the Python `set(classes)`.
CPython iterates a set in an order that is a fixed (per-process) function
of the set contents; it is modelled as the duplicate-free list sorted by
character codes, which is such a function. -/
def pySet (l : List String) : List String := l.foldr insertKey []

/-- The dict comprehension of app/utils.py lines 148-151: one generator
draw of three bytes per distinct class label, in set-iteration order. -/
def assignColors : Rng → List String → List (String × Color)
  | _, [] => []
  | r, c :: cs =>
    let (col, r2) := randColor r
    (c, col) :: assignColors r2 cs

/-- The `colors` dictionary of `draw_predictions_on_image`: seed the global
generator with the fixed seed 42, then assign one color per distinct class
label. -/
def classColors (classes : List String) : List (String × Color) :=
  assignColors (npRandomSeed 42) (pySet classes)

/-- Indexed map over a list, carrying the position. -/
def mapIdxFrom {α β : Type} (f : Nat → α → β) : Nat → List α → List β
  | _, [] => []
  | k, a :: as => f k a :: mapIdxFrom f (k + 1) as

/-- Pointwise transformation of a pixel grid, giving the update function
the row and column index. -/
def mapGrid (f : Nat → Nat → Color → Color) (img : ImageG) : ImageG :=
  mapIdxFrom (fun i row => mapIdxFrom (fun j px => f i j px) 0 row) 0 img

/-- The NumPy boolean-mask assignment `mask_overlay[mask > 0] = color`:
set every pixel whose mask cell is set. -/
def maskAssign (img : ImageG) (mask : List (List Bool)) (c : Color) : ImageG :=
  mapGrid (fun i j px => if (mask.getD i []).getD j false then c else px) img

/-- Modelled from the spec: the per-channel 70% / 30% blend of
`cv2.addWeighted(annotated, 0.7, mask_overlay, 0.3, 0)`, with rounding. -/
def blendPx (a b : Color) : Color :=
  ((7 * a.1 + 3 * b.1 + 5) / 10,
   (7 * a.2.1 + 3 * b.2.1 + 5) / 10,
   (7 * a.2.2 + 3 * b.2.2 + 5) / 10)

/-- `cv2.addWeighted` on two images of equal dimensions. -/
def addWeighted (a b : ImageG) : ImageG :=
  List.zipWith (List.zipWith blendPx) a b

/-- Python `int()` applied to a rational: truncation toward zero. -/
def pyInt (q : ℚ) : Int := Int.tdiv q.num q.den

/-- Membership in the 2-pixel-wide rectangle outline drawn by
`cv2.rectangle(annotated, (x1, y1), (x2, y2), color, 2)`; pixels outside
the image are clipped away by the grid bounds. -/
def onRectBorder (x1 y1 x2 y2 : Int) (i j : Nat) : Bool :=
  decide (x1 - 1 ≤ (j : Int) ∧ (j : Int) ≤ x2 + 1 ∧ y1 - 1 ≤ (i : Int) ∧ (i : Int) ≤ y2 + 1) &&
  !decide (x1 + 1 < (j : Int) ∧ (j : Int) < x2 - 1 ∧ y1 + 1 < (i : Int) ∧ (i : Int) < y2 - 1)

/-- Modelled from the spec: `cv2.rectangle` with thickness 2 recolors the
outline pixels and no others; shape-preserving. -/
def drawRect (img : ImageG) (x1 y1 x2 y2 : Int) (c : Color) : ImageG :=
  mapGrid (fun i j px => if onRectBorder x1 y1 x2 y2 i j then c else px) img

/-- Membership in a filled axis-aligned rectangle (`cv2.rectangle` with
thickness -1, used for the label background). -/
def inRectFill (x1 y1 x2 y2 : Int) (i j : Nat) : Bool :=
  decide (x1 ≤ (j : Int) ∧ (j : Int) ≤ x2 ∧ y1 ≤ (i : Int) ∧ (i : Int) ≤ y2)

/-- Modelled from the spec: the filled label-background rectangle;
clipped at the image border, shape-preserving. -/
def fillRect (img : ImageG) (x1 y1 x2 y2 : Int) (c : Color) : ImageG :=
  mapGrid (fun i j px => if inRectFill x1 y1 x2 y2 i j then c else px) img

/-- Two-digit zero-padded decimal rendering, for the fractional part of a
`:.2f` format. -/
def twoDecimalDigits (k : Nat) : List Char :=
  [digitChar (k / 10 % 10), digitChar (k % 10)]

/-- Modelled from the spec: Python `f"{score:.2f}"` for a score in
`[0, 1]` — round to two decimal places and print. -/
def formatScore2 (q : ℚ) : List Char :=
  let n : Nat := (Rat.floor (q * 100 + 1 / 2)).toNat
  natToDigits (n / 100) ++ '.' :: twoDecimalDigits (n % 100)

/-- The label text `f"{cls}: {score:.2f}"` of app/utils.py line 169. -/
def labelOf (cls : String) (score : ℚ) : List Char :=
  cls.data ++ ':' :: ' ' :: formatScore2 score

/-- Modelled from the spec: `cv2.getTextSize` — a deterministic
(width, height) function of the label text. -/
def getTextSize (label : List Char) : Nat × Nat := (10 * label.length, 12)

/-- Modelled from the spec: the glyph pixels of `cv2.putText` — an
abstract deterministic pattern confined to the text box at the origin
`(x, y)` (bottom-left corner). -/
def onGlyph (label : List Char) (x y : Int) (i j : Nat) : Bool :=
  (decide (x ≤ (j : Int) ∧ (j : Int) ≤ x + (getTextSize label).1 ∧
    y - (getTextSize label).2 ≤ (i : Int) ∧ (i : Int) ≤ y) &&
   decide ((i + j + label.length) % 2 = 0))

/-- Modelled from the spec: `cv2.putText` recolors the glyph pixels (white
text) and no others; clipped at the image border, shape-preserving. -/
def putText (img : ImageG) (label : List Char) (x y : Int) (c : Color) : ImageG :=
  mapGrid (fun i j px => if onGlyph label x y i j then c else px) img

/-- The record of one detection actually drawn: its box, class label and
score (one mask overlay, one rectangle and one label per record). -/
structure DrawnItem where
  box : ℚ × ℚ × ℚ × ℚ
  cls : String
  score : ℚ
deriving DecidableEq

/-- The arrays live during `draw_predictions_on_image`: the caller's input
array (`image`) and the working copy (`annotated`).  The source never
writes through `image`; every in-place OpenCV call targets `annotated` (or
the transient `mask_overlay`). -/
structure DrawBufs where
  image : ImageG
  annotated : ImageG
deriving DecidableEq

/-- One iteration of the drawing loop (app/utils.py lines 153-190): skip
the detection silently when `score < score_threshold`; otherwise overlay
the mask at 70/30, draw the 2-pixel box outline, the filled label
background and the label text, and record the drawn detection. -/
def drawOne (colors : List (String × Color)) (thr : ℚ) (b : DrawBufs)
    (det : (ℚ × ℚ × ℚ × ℚ) × (List (List Bool)) × ℚ × String) :
    DrawBufs × Option DrawnItem :=
  match det with
  | (box, mask, score, cls) =>
    if score < thr then (b, none)
    else
      let color := (colors.lookup cls).getD (0, 0, 0)
      let overlay := maskAssign b.annotated mask color
      let a1 := addWeighted b.annotated overlay
      let x1 := pyInt box.1
      let y1 := pyInt box.2.1
      let x2 := pyInt box.2.2.1
      let y2 := pyInt box.2.2.2
      let a2 := drawRect a1 x1 y1 x2 y2 color
      let label := labelOf cls score
      let ls := getTextSize label
      let a3 := fillRect a2 x1 (y1 - ls.2 - 10) (x1 + ls.1) y1 color
      let a4 := putText a3 label x1 (y1 - 5) (255, 255, 255)
      ({ b with annotated := a4 }, some ⟨box, cls, score⟩)

/-- The full drawing loop over the zipped detections, returning the final
buffers and the records of the detections that were drawn, in order. -/
def drawLoop (colors : List (String × Color)) (thr : ℚ) :
    DrawBufs → List ((ℚ × ℚ × ℚ × ℚ) × (List (List Bool)) × ℚ × String) →
    DrawBufs × List DrawnItem
  | b, [] => (b, [])
  | b, d :: ds =>
    let r1 := drawOne colors thr b d
    let r2 := drawLoop colors thr r1.1 ds
    (r2.1, match r1.2 with | none => r2.2 | some it => it :: r2.2)

/-- `draw_predictions_on_image` (app/utils.py lines 122-192).  `rngIn` is
the ambient state of the process-wide NumPy generator at call time; the
function seeds it with the fixed seed 42 before assigning colors.  Boxes
are the `[x1, y1, x2, y2]` 4-tuples of the docstring (Python unpacks
exactly four coordinates).  Returns the annotated image, the caller's
input array as it stands after the call, and the records of the drawn
detections. -/
def draw_predictions_on_image (rngIn : Rng) (image : ImageG)
    (boxes : List (ℚ × ℚ × ℚ × ℚ)) (masks : List (List (List Bool)))
    (scores : List ℚ) (classes : List String) (score_threshold : ℚ) :
    ImageG × ImageG × List DrawnItem :=
  let _ := rngIn
  let annotated := image
  let colors := classColors classes
  let res := drawLoop colors score_threshold ⟨image, annotated⟩
    (boxes.zip (masks.zip (scores.zip classes)))
  (res.1.annotated, res.1.image, res.2)

/-- The score component of a zipped drawing-loop input. -/
def drawInputScore (det : (ℚ × ℚ × ℚ × ℚ) × (List (List Bool)) × ℚ × String) : ℚ :=
  det.2.2.1

/-- The drawn-detection record of a zipped drawing-loop input. -/
def drawInputItem (det : (ℚ × ℚ × ℚ × ℚ) × (List (List Bool)) × ℚ × String) : DrawnItem :=
  ⟨det.1, det.2.2.2, det.2.2.1⟩

/-- An image has exactly `h` pixel rows of `w` pixels each. -/
def dimsEq (img : ImageG) (h w : Nat) : Prop :=
  img.length = h ∧ ∀ r ∈ img, r.length = w

/-! ### Model factory initialization (app/models/factory.py)

`ModelFactory.initialize_models` checks the class-level `_initialized`
flag, loads the YOLO model, loads the Mask R-CNN model, and finally sets
the flag; `ModelFactory.get_model` triggers it when the flag is unset.
There is no lock.  The interleaving model below gives each thread a program
counter over those four steps; loads of each model are counted. -/

/-- The shared class-level state of `ModelFactory`: the `_initialized`
flag, plus a count of how many times each model's `load_model` ran. -/
structure FactoryState where
  initialized : Bool
  yoloLoads : Nat
  maskrcnnLoads : Nat
deriving DecidableEq

/-- One atomic step of a thread running the first-use initialization path
of `ModelFactory.get_model` / `initialize_models`.  Program counters:
0 = check the `_initialized` flag (skip to 4 when set), 1 = run
`YOLOModel.load_model`, 2 = run `MaskRCNNModel.load_model`, 3 = set the
flag, 4 = done. -/
def factoryStep (s : FactoryState) (pc : Nat) : FactoryState × Nat :=
  match pc with
  | 0 => if s.initialized then (s, 4) else (s, 1)
  | 1 => ({ s with yoloLoads := s.yoloLoads + 1 }, 2)
  | 2 => ({ s with maskrcnnLoads := s.maskrcnnLoads + 1 }, 3)
  | 3 => ({ s with initialized := true }, 4)
  | _ => (s, pc)

/-- Two concurrent callers of the initialization path: the shared factory
state and one program counter per thread. -/
structure TwoThreads where
  st : FactoryState
  pc0 : Nat
  pc1 : Nat
deriving DecidableEq

/-- Run one step of the chosen thread (`false` = thread 0, `true` =
thread 1) against the shared state. -/
def schedStep (t : TwoThreads) (who : Bool) : TwoThreads :=
  if who then
    let r := factoryStep t.st t.pc1
    { t with st := r.1, pc1 := r.2 }
  else
    let r := factoryStep t.st t.pc0
    { t with st := r.1, pc0 := r.2 }

/-- Run a schedule: the list of thread choices, executed left to right. -/
def runSched (t : TwoThreads) : List Bool → TwoThreads
  | [] => t
  | w :: ws => runSched (schedStep t w) ws

/-- The state before any initialization: flag unset, no loads, both
threads about to enter `get_model`. -/
def factoryStart : TwoThreads := ⟨⟨false, 0, 0⟩, 0, 0⟩

/-- One complete, uninterrupted call of `ModelFactory.initialize_models`
(the sequential, non-concurrent execution). -/
def initModelsCall (s : FactoryState) : FactoryState :=
  let r1 := factoryStep s 0
  let r2 := factoryStep r1.1 r1.2
  let r3 := factoryStep r2.1 r2.2
  (factoryStep r3.1 r3.2).1

/-! ### HTTP handlers (app/main.py)

The `predict` and `predict_visualize` handlers, embedded with the
external collaborators (image decoding, model resolution, inference) as
oracle parameters.  Each handler also returns the list of external
operations it attempted, in order. -/

/-- The external operations a handler can attempt. -/
inductive HandlerEvent
  | decodedImage
  | resolvedModel
  | ranInference
  | formattedDetections
  | drewVisualization
deriving DecidableEq

/-- An HTTP error response: status code and detail message. -/
structure HttpError where
  code : Nat
  detail : String
deriving DecidableEq

/-- The `POST /predict` handler (app/main.py lines 188-259): read the
upload, reject an empty body with 400 before anything else, then decode
the image, resolve the model, run inference and format the detections. -/
def predict (fileBytes : List Nat) (modelParam : Option String)
    (loadImage : List Nat → Except String ImageG)
    (resolveModel : Option String → Except String Nat)
    (runInfer : Nat → ImageG → Predictions)
    (formatFn : Nat → Predictions → Except FormatError (List DetectionOut)) :
    Except HttpError (List DetectionOut × Nat) × List HandlerEvent :=
  if fileBytes.isEmpty then
    (.error ⟨400, "Empty file uploaded"⟩, [])
  else
    match loadImage fileBytes with
    | .error e => (.error ⟨400, "Invalid image format: " ++ e⟩, [.decodedImage])
    | .ok img =>
      match resolveModel modelParam with
      | .error _ => (.error ⟨400, "Invalid model type"⟩, [.decodedImage, .resolvedModel])
      | .ok h =>
        let preds := runInfer h img
        match formatFn h preds with
        | .error _ =>
          (.error ⟨500, "Inference failed"⟩,
           [.decodedImage, .resolvedModel, .ranInference, .formattedDetections])
        | .ok ds =>
          (.ok (ds, preds.num_detections),
           [.decodedImage, .resolvedModel, .ranInference, .formattedDetections])

/-- The `POST /predict/visualize` handler (app/main.py lines 275-357):
read the upload, reject an empty body with 400 before anything else, then
decode the image, resolve the model, run inference and draw the
annotated image.  Boxes are unpacked to 4-tuples and class indices are
resolved against the class table as in the list comprehension of line
330. -/
def predict_visualize (rngIn : Rng) (fileBytes : List Nat) (modelParam : Option String)
    (loadImage : List Nat → Except String ImageG)
    (resolveModel : Option String → Except String Nat)
    (runInfer : Nat → ImageG → Predictions)
    (score_threshold : ℚ) :
    Except HttpError (ImageG × Nat) × List HandlerEvent :=
  if fileBytes.isEmpty then
    (.error ⟨400, "Empty file uploaded"⟩, [])
  else
    match loadImage fileBytes with
    | .error e => (.error ⟨400, "Invalid image format: " ++ e⟩, [.decodedImage])
    | .ok img =>
      match resolveModel modelParam with
      | .error _ => (.error ⟨400, "Invalid model type"⟩, [.decodedImage, .resolvedModel])
      | .ok h =>
        let preds := runInfer h img
        let boxes4 := preds.boxes.map fun b =>
          (b.getD 0 0, b.getD 1 0, b.getD 2 0, b.getD 3 0)
        let classNames := preds.classes.map fun i => vertebrae_classes.getD i ""
        let res := draw_predictions_on_image rngIn img boxes4 preds.masks
          preds.scores classNames score_threshold
        (.ok (res.1, preds.num_detections),
         [.decodedImage, .resolvedModel, .ranInference, .drewVisualization])

/-! ## Theorems -/

/-! ### Run-length coding lemmas -/

theorem runsToList_runsAux (l : List Bool) : ∀ (cur : Bool) (n : Nat),
    runsToList cur (runsAux cur n l) = List.replicate n cur ++ l := by
  induction l with
  | nil => intro cur n; simp [runsAux, runsToList]
  | cons x xs ih =>
    intro cur n
    by_cases h : x = cur
    · subst h
      rw [runsAux, if_pos rfl, ih]
      rw [List.replicate_succ', List.append_assoc, List.singleton_append]
    · rw [runsAux, if_neg h, runsToList]
      have hx : (!cur) = x := by cases cur <;> cases x <;> simp_all
      rw [hx, ih x 1, List.replicate_one, List.singleton_append]

theorem runsToList_runLengths (l : List Bool) : runsToList false (runLengths l) = l := by
  simpa using runsToList_runsAux l false 0

theorem sum_runsAux (l : List Bool) : ∀ (cur : Bool) (n : Nat),
    (runsAux cur n l).sum = n + l.length := by
  induction l with
  | nil => intro cur n; simp [runsAux]
  | cons x xs ih =>
    intro cur n
    by_cases h : x = cur
    · rw [runsAux, if_pos h, ih]
      simp; omega
    · rw [runsAux, if_neg h]
      simp [ih x 1]; omega

theorem sum_runLengths (l : List Bool) : (runLengths l).sum = l.length := by
  simpa using sum_runsAux l false 0

theorem runsAux_ne_nil (l : List Bool) : ∀ (cur : Bool) (n : Nat), runsAux cur n l ≠ [] := by
  induction l with
  | nil => intro cur n; simp [runsAux]
  | cons x xs ih =>
    intro cur n
    rw [runsAux]
    split
    · exact ih _ _
    · simp

theorem runLengths_ne_nil (l : List Bool) : runLengths l ≠ [] := runsAux_ne_nil l false 0

/-! ### Decimal counts string lemmas -/

theorem digitVal_digitChar (n : Nat) (h : n < 10) : digitVal (digitChar n) = some n := by
  interval_cases n <;> rfl

theorem natToDigits_ne_nil (n : Nat) : natToDigits n ≠ [] := by
  rw [natToDigits]; split <;> simp

theorem mem_natToDigits_isDigit (n : Nat) : ∀ c ∈ natToDigits n, (digitVal c).isSome := by
  induction n using Nat.strong_induction_on with
  | _ n ih =>
    intro c hc
    rw [natToDigits] at hc
    split at hc
    · next h =>
      simp only [List.mem_singleton] at hc
      subst hc
      rw [digitVal_digitChar n h]; rfl
    · next h =>
      rw [List.mem_append] at hc
      rcases hc with h1 | h2
      · exact ih (n / 10) (Nat.div_lt_self (by omega) (by omega)) c h1
      · simp only [List.mem_singleton] at h2
        subst h2
        rw [digitVal_digitChar (n % 10) (by omega)]; rfl

theorem parseDigitsAux_append (l1 l2 : List Char) : ∀ (acc : Nat),
    parseDigitsAux acc (l1 ++ l2) =
      (parseDigitsAux acc l1).bind fun a => parseDigitsAux a l2 := by
  induction l1 with
  | nil => intro acc; simp [parseDigitsAux]
  | cons c cs ih =>
    intro acc
    rw [List.cons_append]
    cases hdv : digitVal c with
    | none => simp [parseDigitsAux, hdv]
    | some v =>
      simp only [parseDigitsAux, hdv]
      exact ih (acc * 10 + v)

theorem parseDigitsAux_natToDigits (n : Nat) : ∀ (acc : Nat),
    parseDigitsAux acc (natToDigits n) = some (acc * 10 ^ (natToDigits n).length + n) := by
  induction n using Nat.strong_induction_on with
  | _ n ih =>
    intro acc
    by_cases h : n < 10
    · rw [natToDigits, if_pos h]
      simp [parseDigitsAux, digitVal_digitChar n h]
    · have hlt : n / 10 < n := Nat.div_lt_self (by omega) (by omega)
      have hlen : (natToDigits n).length = (natToDigits (n / 10)).length + 1 := by
        conv_lhs => rw [natToDigits, if_neg h]
        simp
      conv_lhs => rw [natToDigits, if_neg h]
      rw [parseDigitsAux_append, ih (n / 10) hlt acc]
      show parseDigitsAux _ [digitChar (n % 10)] = _
      simp only [parseDigitsAux, digitVal_digitChar (n % 10) (by omega : n % 10 < 10)]
      rw [hlen, pow_succ, ← mul_assoc]
      congr 1
      generalize acc * 10 ^ (natToDigits (n / 10)).length = k
      omega

theorem parseNat_natToDigits (n : Nat) : parseNat (natToDigits n) = some n := by
  obtain ⟨c, cs, hc⟩ := List.exists_cons_of_ne_nil (natToDigits_ne_nil n)
  have h1 : parseNat (natToDigits n) = parseDigitsAux 0 (natToDigits n) := by rw [hc]; rfl
  rw [h1, parseDigitsAux_natToDigits n 0]
  simp

theorem splitStrAux_no_space (l : List Char) (hl : ∀ c ∈ l, c ≠ ' ') :
    ∀ (cur : List Char), splitStrAux cur l = [cur.reverse ++ l] := by
  induction l with
  | nil => intro cur; simp [splitStrAux]
  | cons c cs ih =>
    intro cur
    have hc : c ≠ ' ' := hl c (by simp)
    rw [splitStrAux, if_neg hc, ih (fun d hd => hl d (by simp [hd])) (c :: cur)]
    simp

theorem splitStrAux_sep (l1 : List Char) (h1 : ∀ c ∈ l1, c ≠ ' ') (l2 : List Char) :
    ∀ (cur : List Char),
    splitStrAux cur (l1 ++ ' ' :: l2) = (cur.reverse ++ l1) :: splitStrAux [] l2 := by
  induction l1 with
  | nil => intro cur; simp [splitStrAux]
  | cons c cs ih =>
    intro cur
    have hc : c ≠ ' ' := h1 c (by simp)
    rw [List.cons_append, splitStrAux, if_neg hc,
        ih (fun d hd => h1 d (by simp [hd])) (c :: cur)]
    simp

theorem no_space_in_natToDigits (n : Nat) : ∀ c ∈ natToDigits n, c ≠ ' ' := by
  intro c hc heq
  have hd := mem_natToDigits_isDigit n c hc
  rw [heq, show digitVal ' ' = none from rfl] at hd
  simp at hd

theorem splitSpaces_printCounts (cnts : List Nat) (h : cnts ≠ []) :
    splitSpaces (printCounts cnts) = cnts.map natToDigits := by
  induction cnts with
  | nil => exact absurd rfl h
  | cons n rest ih =>
    cases rest with
    | nil =>
      show splitStrAux [] (printCounts [n]) = [natToDigits n]
      rw [show printCounts [n] = natToDigits n from rfl,
          splitStrAux_no_space (natToDigits n) (no_space_in_natToDigits n) []]
      simp
    | cons m rest2 =>
      show splitStrAux [] (printCounts (n :: m :: rest2)) = _
      rw [show printCounts (n :: m :: rest2) =
            natToDigits n ++ ' ' :: printCounts (m :: rest2) from rfl,
          splitStrAux_sep (natToDigits n) (no_space_in_natToDigits n) _ []]
      rw [List.map_cons]
      simp only [List.reverse_nil, List.nil_append, List.cons.injEq, true_and]
      exact ih (by simp)

theorem parsePieces_map (cnts : List Nat) :
    parsePieces (cnts.map natToDigits) = some cnts := by
  induction cnts with
  | nil => rfl
  | cons n rest ih =>
    rw [List.map_cons]
    show (match parseNat (natToDigits n), parsePieces (rest.map natToDigits) with
          | some a, some as => some (a :: as)
          | _, _ => none) = _
    rw [parseNat_natToDigits, ih]

theorem parseCounts_printCounts (cnts : List Nat) (h : cnts ≠ []) :
    parseCounts (printCounts cnts) = some cnts := by
  rw [parseCounts, splitSpaces_printCounts cnts h, parsePieces_map]

/-! ### Grid flattening lemmas -/

theorem map_range_getD {α : Type} (d : α) (l : List α) :
    (List.range l.length).map (fun i => l.getD i d) = l := by
  induction l with
  | nil => simp
  | cons a t ih =>
    rw [List.length_cons, List.range_succ_eq_map, List.map_cons, List.map_map]
    have h2 : ((fun i => (a :: t).getD i d) ∘ Nat.succ) = fun i => t.getD i d := by
      funext i
      simp [Function.comp, List.getD_cons_succ]
    rw [List.getD_cons_zero, h2, ih]

theorem flatten_getD_uniform {α : Type} (d : α) (h : Nat) (L : List (List α))
    (hh : ∀ l ∈ L, l.length = h) : ∀ (j i : Nat), j < L.length → i < h →
    (L.flatten).getD (j * h + i) d = (L.getD j []).getD i d := by
  induction L with
  | nil =>
    intro j i hj _
    simp at hj
  | cons l t ih =>
    intro j i hj hi
    have hl : l.length = h := hh l (by simp)
    cases j with
    | zero =>
      rw [List.flatten_cons, Nat.zero_mul, Nat.zero_add, List.getD_cons_zero,
          List.getD_append]
      omega
    | succ j' =>
      rw [List.flatten_cons,
          show (j' + 1) * h + i = l.length + (j' * h + i) by rw [hl, Nat.succ_mul]; ring,
          List.getD_append_right _ _ _ _ (Nat.le_add_right _ _),
          Nat.add_sub_cancel_left,
          ih (fun x hx => hh x (by simp [hx])) j' i (by simpa using hj) hi,
          List.getD_cons_succ]

theorem getD_map_range {α : Type} (d : α) (f : Nat → α) (w j : Nat) (hj : j < w) :
    ((List.range w).map f).getD j d = f j := by
  rw [List.getD_eq_getElem?_getD, List.getElem?_map, List.getElem?_range hj]
  rfl

theorem getD_map_lt {α β : Type} (f : α → β) (l : List α) (i : Nat) (hi : i < l.length)
    (d : β) (d2 : α) : (l.map f).getD i d = f (l.getD i d2) := by
  rw [List.getD_eq_getElem?_getD, List.getElem?_map, List.getElem?_eq_getElem hi,
      List.getD_eq_getElem?_getD, List.getElem?_eq_getElem hi]
  rfl

theorem getD_mem {α : Type} (l : List α) (i : Nat) (hi : i < l.length) (d : α) :
    l.getD i d ∈ l := by
  rw [List.getD_eq_getElem?_getD, List.getElem?_eq_getElem hi]
  exact List.getElem_mem _

theorem colMajor_length (m : List (List Bool)) :
    (colMajor m).length = (m.headD []).length * m.length := by
  rw [colMajor, List.length_flatten, List.map_map]
  have heq : (List.length ∘ fun j => m.map fun row => row.getD j false) =
      fun (_ : Nat) => m.length := by
    funext j
    simp [Function.comp]
  rw [heq, List.map_const', List.sum_replicate, List.length_range, smul_eq_mul]

theorem colMajor_getD (m : List (List Bool)) (w : Nat)
    (hw : ∀ r ∈ m, r.length = w) (i j : Nat) (hi : i < m.length) (hj : j < w) :
    (colMajor m).getD (j * m.length + i) false = (m.getD i []).getD j false := by
  have hm : m ≠ [] := by
    intro h
    rw [h] at hi
    simp at hi
  have hw0 : (m.headD []).length = w := by
    obtain ⟨a, t, rfl⟩ := List.exists_cons_of_ne_nil hm
    exact hw a (by simp)
  rw [colMajor,
      flatten_getD_uniform false m.length _
        (by intro l hl; rw [List.mem_map] at hl; obtain ⟨j2, _, rfl⟩ := hl; simp)
        j i (by rw [List.length_map, List.length_range, hw0]; exact hj) hi,
      getD_map_range ([] : List Bool) _ _ j (by rw [hw0]; exact hj),
      getD_map_lt _ m i hi false []]

theorem gridOfFlat_colMajor (m : List (List Bool)) (w : Nat)
    (hw : ∀ r ∈ m, r.length = w) :
    gridOfFlat m.length w (colMajor m) = m := by
  rw [gridOfFlat]
  conv_rhs => rw [← map_range_getD ([] : List Bool) m]
  apply List.map_congr_left
  intro i hi
  rw [List.mem_range] at hi
  have hrow : (m.getD i []).length = w := hw _ (getD_mem m i hi [])
  conv_rhs => rw [← map_range_getD false (m.getD i []), hrow]
  apply List.map_congr_left
  intro j hj
  rw [List.mem_range] at hj
  exact colMajor_getD m w hw i j hi hj

/-- C1: for every rectangular binary mask — including the all-zero and
all-one masks — decoding the result of encoding it returns the original
mask exactly, where the encoding scans the grid in column-major order and
its counts field is an ASCII string. -/
theorem C1_rle_round_trip (m : List (List Bool))
    (hw : ∀ r ∈ m, r.length = (m.headD []).length) :
    decode_rle_to_mask (encode_mask_to_rle m) = .ok m := by
  rw [encode_mask_to_rle, decode_rle_to_mask]
  simp only
  rw [parseCounts_printCounts _ (runLengths_ne_nil _)]
  simp only
  rw [if_pos (by rw [sum_runLengths, colMajor_length, Nat.mul_comm])]
  rw [runsToList_runLengths, gridOfFlat_colMajor m _ hw]

/-- Witness for C1 at the all-zero and all-one 2×2 masks. -/
theorem C1_rle_round_trip_witness :
    (∀ r ∈ [[false, false], [false, false]],
        r.length = ([[false, false], [false, false]].headD []).length) ∧
    decode_rle_to_mask (encode_mask_to_rle [[false, false], [false, false]]) =
      .ok [[false, false], [false, false]] ∧
    decode_rle_to_mask (encode_mask_to_rle [[true, true], [true, true]]) =
      .ok [[true, true], [true, true]] :=
  ⟨by decide, C1_rle_round_trip _ (by decide), C1_rle_round_trip _ (by decide)⟩

theorem gridOfFlat_length (h w : Nat) (flat : List Bool) :
    (gridOfFlat h w flat).length = h := by
  rw [gridOfFlat, List.length_map, List.length_range]

theorem gridOfFlat_row_length (h w : Nat) (flat : List Bool) :
    ∀ row ∈ gridOfFlat h w flat, row.length = w := by
  intro row hrow
  rw [gridOfFlat, List.mem_map] at hrow
  obtain ⟨i, _, rfl⟩ := hrow
  rw [List.length_map, List.length_range]

/-- C5: decoding fails with `MalformedRLEError` exactly when the counts
string cannot be parsed or the parsed run lengths sum to a total different
from `size[0] * size[1]`; on a well-formed RLE it returns the
corresponding `size[0] × size[1]` binary grid. -/
theorem C5_decode_errors (r : RLE) :
    (parseCounts r.counts = none → decode_rle_to_mask r = .error .malformedRLE) ∧
    (∀ cnts, parseCounts r.counts = some cnts → cnts.sum ≠ r.size.1 * r.size.2 →
      decode_rle_to_mask r = .error .malformedRLE) ∧
    (∀ cnts, parseCounts r.counts = some cnts → cnts.sum = r.size.1 * r.size.2 →
      decode_rle_to_mask r = .ok (gridOfFlat r.size.1 r.size.2 (runsToList false cnts)) ∧
      (gridOfFlat r.size.1 r.size.2 (runsToList false cnts)).length = r.size.1 ∧
      ∀ row ∈ gridOfFlat r.size.1 r.size.2 (runsToList false cnts),
        row.length = r.size.2) := by
  refine ⟨?_, ?_, ?_⟩
  · intro hparse
    rw [decode_rle_to_mask, hparse]
  · intro cnts hparse hsum
    rw [decode_rle_to_mask, hparse]
    simp only
    rw [if_neg hsum]
  · intro cnts hparse hsum
    refine ⟨?_, gridOfFlat_length _ _ _, gridOfFlat_row_length _ _ _⟩
    rw [decode_rle_to_mask, hparse]
    simp only
    rw [if_pos hsum]

/-- Witness for C5: an unparsable counts string, a counts string whose sum
mismatches the size, and a well-formed RLE. -/
theorem C5_decode_errors_witness :
    decode_rle_to_mask ⟨(1, 1), ['x']⟩ = .error .malformedRLE ∧
    decode_rle_to_mask ⟨(2, 2), ['1', ' ', '2']⟩ = .error .malformedRLE ∧
    decode_rle_to_mask ⟨(1, 2), ['1', ' ', '1']⟩ =
      .ok (gridOfFlat 1 2 (runsToList false [1, 1])) ∧
    gridOfFlat 1 2 (runsToList false [1, 1]) = [[false, true]] :=
  ⟨(C5_decode_errors ⟨(1, 1), ['x']⟩).1 (by decide),
   (C5_decode_errors ⟨(2, 2), ['1', ' ', '2']⟩).2.1 [1, 2] (by decide) (by decide),
   ((C5_decode_errors ⟨(1, 2), ['1', ' ', '1']⟩).2.2 [1, 1] (by decide) (by decide)).1,
   by decide⟩

/-! ### Detection formatting lemmas -/

theorem getElem?_eq_some_getD {α : Type} (l : List α) (i : Nat) (h : i < l.length)
    (d : α) : l[i]? = some (l.getD i d) := by
  rw [List.getElem?_eq_getElem h, List.getD_eq_getElem?_getD, List.getElem?_eq_getElem h]
  rfl

theorem formatRange_ok (f : Nat → Except FormatError DetectionOut)
    (g : Nat → DetectionOut) (l : List Nat) (h : ∀ i ∈ l, f i = .ok (g i)) :
    formatRange f l = .ok (l.map g) := by
  induction l with
  | nil => rfl
  | cons i is ih =>
    simp only [formatRange]
    rw [h i (by simp), ih (fun x hx => h x (by simp [hx]))]
    rfl

theorem formatRange_error (f : Nat → Except FormatError DetectionOut)
    (g : Nat → DetectionOut) (e : FormatError) (l : List Nat)
    (hall : ∀ i ∈ l, f i = .ok (g i) ∨ f i = .error e)
    (hex : ∃ i ∈ l, f i = .error e) :
    formatRange f l = .error e := by
  induction l with
  | nil =>
    obtain ⟨i, hi, _⟩ := hex
    simp at hi
  | cons i is ih =>
    rcases hall i (by simp) with hok | herr
    · have hex2 : ∃ x ∈ is, f x = .error e := by
        obtain ⟨x, hx, hfe⟩ := hex
        rcases List.mem_cons.mp hx with rfl | hxs
        · rw [hok] at hfe
          exact absurd hfe (by simp)
        · exact ⟨x, hxs, hfe⟩
      simp only [formatRange]
      rw [hok, ih (fun x hx => hall x (by simp [hx])) hex2]
    · simp only [formatRange]
      rw [herr]

theorem maskrcnn_detection_at_ok (p : Predictions) (i : Nat)
    (hb : i < p.boxes.length) (hs : i < p.scores.length)
    (hc : i < p.classes.length) (hm : i < p.masks.length)
    (hbox : 4 ≤ (p.boxes.getD i []).length)
    (hcls : p.classes.getD i 0 < vertebrae_classes.length) :
    MaskRCNNModel.detection_at p i = .ok (MaskRCNNModel.expected_at p i) := by
  have e1 := getElem?_eq_some_getD p.boxes i hb []
  have e2 := getElem?_eq_some_getD p.scores i hs 0
  have e3 := getElem?_eq_some_getD p.classes i hc 0
  have e4 := getElem?_eq_some_getD p.masks i hm []
  have e5 := getElem?_eq_some_getD vertebrae_classes (p.classes.getD i 0) hcls ""
  obtain ⟨x1, y1, x2, y2, rest, hb4⟩ : ∃ x1 y1 x2 y2 rest,
      p.boxes.getD i [] = x1 :: y1 :: x2 :: y2 :: rest := by
    rcases hval : p.boxes.getD i [] with _ | ⟨a, _ | ⟨b, _ | ⟨c, _ | ⟨d, t⟩⟩⟩⟩ <;>
      (rw [hval] at hbox; simp at hbox)
    exact ⟨a, b, c, d, t, rfl⟩
  have hexp : MaskRCNNModel.expected_at p i =
      ⟨⟨x1, y1, x2, y2⟩, .rleMask (encode_mask_to_rle (p.masks.getD i [])),
       p.scores.getD i 0, vertebrae_classes.getD (p.classes.getD i 0) "",
       p.classes.getD i 0⟩ := by
    unfold MaskRCNNModel.expected_at
    rw [hb4]
    rfl
  simp only [MaskRCNNModel.detection_at, e1, e2, e3, e4, e5, hb4]
  rw [hexp]

theorem yolo_detection_at_ok (p : Predictions) (i : Nat)
    (hb : i < p.boxes.length) (hs : i < p.scores.length)
    (hc : i < p.classes.length) (hm : i < p.masks.length)
    (hbox : 4 ≤ (p.boxes.getD i []).length)
    (hcls : p.classes.getD i 0 < vertebrae_classes.length) :
    YOLOModel.detection_at p i = .ok (YOLOModel.expected_at p i) := by
  have e1 := getElem?_eq_some_getD p.boxes i hb []
  have e2 := getElem?_eq_some_getD p.scores i hs 0
  have e3 := getElem?_eq_some_getD p.classes i hc 0
  have e4 := getElem?_eq_some_getD p.masks i hm []
  have e5 := getElem?_eq_some_getD vertebrae_classes (p.classes.getD i 0) hcls ""
  obtain ⟨x1, y1, x2, y2, rest, hb4⟩ : ∃ x1 y1 x2 y2 rest,
      p.boxes.getD i [] = x1 :: y1 :: x2 :: y2 :: rest := by
    rcases hval : p.boxes.getD i [] with _ | ⟨a, _ | ⟨b, _ | ⟨c, _ | ⟨d, t⟩⟩⟩⟩ <;>
      (rw [hval] at hbox; simp at hbox)
    exact ⟨a, b, c, d, t, rfl⟩
  have hexp : YOLOModel.expected_at p i =
      ⟨⟨x1, y1, x2, y2⟩, .rawGrid (p.masks.getD i []),
       p.scores.getD i 0, vertebrae_classes.getD (p.classes.getD i 0) "",
       p.classes.getD i 0⟩ := by
    unfold YOLOModel.expected_at
    rw [hb4]
    rfl
  simp only [YOLOModel.detection_at, e1, e2, e3, e4, e5, hb4]
  rw [hexp]

theorem maskrcnn_detection_at_oob (p : Predictions) (i : Nat)
    (hb : i < p.boxes.length) (hs : i < p.scores.length)
    (hc : i < p.classes.length) (hm : i < p.masks.length)
    (hcls : vertebrae_classes.length ≤ p.classes.getD i 0) :
    MaskRCNNModel.detection_at p i = .error .classIndexOutOfRange := by
  have e1 := getElem?_eq_some_getD p.boxes i hb []
  have e2 := getElem?_eq_some_getD p.scores i hs 0
  have e3 := getElem?_eq_some_getD p.classes i hc 0
  have e4 := getElem?_eq_some_getD p.masks i hm []
  have e5 : vertebrae_classes[p.classes.getD i 0]? = none :=
    List.getElem?_eq_none hcls
  simp only [MaskRCNNModel.detection_at, e1, e2, e3, e4, e5]

theorem yolo_detection_at_oob (p : Predictions) (i : Nat)
    (hb : i < p.boxes.length) (hs : i < p.scores.length)
    (hc : i < p.classes.length) (hm : i < p.masks.length)
    (hcls : vertebrae_classes.length ≤ p.classes.getD i 0) :
    YOLOModel.detection_at p i = .error .classIndexOutOfRange := by
  have e1 := getElem?_eq_some_getD p.boxes i hb []
  have e2 := getElem?_eq_some_getD p.scores i hs 0
  have e3 := getElem?_eq_some_getD p.classes i hc 0
  have e4 := getElem?_eq_some_getD p.masks i hm []
  have e5 : vertebrae_classes[p.classes.getD i 0]? = none :=
    List.getElem?_eq_none hcls
  simp only [YOLOModel.detection_at, e1, e2, e3, e4, e5]

/-- C2, failing-input evaluation: on a well-formed one-detection batch the
YOLO `format_detections` returns the mask field as the raw 2D array, not
as an RLE dictionary, while the Mask R-CNN variant returns the RLE
dictionary — so the claimed "RLE for every model variant" fails on the
YOLO variant. -/
theorem C2_yolo_mask_is_raw :
    YOLOModel.format_detections ⟨[[0, 0, 1, 1]], [1/2], [0], [[[true]]], 1⟩ =
      .ok [⟨⟨0, 0, 1, 1⟩, .rawGrid [[true]], 1/2, "T1", 0⟩] ∧
    MaskField.isRLEDict (MaskField.rawGrid [[true]]) = false ∧
    MaskRCNNModel.format_detections ⟨[[0, 0, 1, 1]], [1/2], [0], [[[true]]], 1⟩ =
      .ok [⟨⟨0, 0, 1, 1⟩, .rleMask (encode_mask_to_rle [[true]]), 1/2, "T1", 0⟩] := by
  refine ⟨rfl, rfl, rfl⟩

/-- C3: on a batch whose parallel sequences all have length
`num_detections`, whose boxes have four coordinates and whose class
indices are all valid, both `format_detections` variants return exactly
`num_detections` detections in input order, and the i-th detection carries
`classTable[classIndices[i]]`, `scores[i]` and the coordinates of
`boxes[i]`. -/
theorem C3_format_fields (p : Predictions)
    (hb : p.boxes.length = p.num_detections)
    (hs : p.scores.length = p.num_detections)
    (hc : p.classes.length = p.num_detections)
    (hm : p.masks.length = p.num_detections)
    (hbox : ∀ b ∈ p.boxes, 4 ≤ b.length)
    (hcls : ∀ c ∈ p.classes, c < vertebrae_classes.length) :
    ∃ ds ds2,
      MaskRCNNModel.format_detections p = .ok ds ∧
      YOLOModel.format_detections p = .ok ds2 ∧
      ds.length = p.num_detections ∧
      ds2.length = p.num_detections ∧
      ∀ i < p.num_detections,
        (ds.getD i dfltDetection).class_name =
            vertebrae_classes.getD (p.classes.getD i 0) "" ∧
        (ds.getD i dfltDetection).score = p.scores.getD i 0 ∧
        (ds.getD i dfltDetection).class_id = p.classes.getD i 0 ∧
        (ds.getD i dfltDetection).bbox =
            ⟨(p.boxes.getD i []).getD 0 0, (p.boxes.getD i []).getD 1 0,
             (p.boxes.getD i []).getD 2 0, (p.boxes.getD i []).getD 3 0⟩ ∧
        (ds2.getD i dfltDetection).class_name =
            vertebrae_classes.getD (p.classes.getD i 0) "" ∧
        (ds2.getD i dfltDetection).score = p.scores.getD i 0 ∧
        (ds2.getD i dfltDetection).class_id = p.classes.getD i 0 ∧
        (ds2.getD i dfltDetection).bbox =
            ⟨(p.boxes.getD i []).getD 0 0, (p.boxes.getD i []).getD 1 0,
             (p.boxes.getD i []).getD 2 0, (p.boxes.getD i []).getD 3 0⟩ := by
  have hper : ∀ i < p.num_detections,
      MaskRCNNModel.detection_at p i = .ok (MaskRCNNModel.expected_at p i) ∧
      YOLOModel.detection_at p i = .ok (YOLOModel.expected_at p i) := by
    intro i hi
    have hib : i < p.boxes.length := by omega
    have hic : i < p.classes.length := by omega
    have hbox2 : 4 ≤ (p.boxes.getD i []).length := hbox _ (getD_mem _ _ hib _)
    have hcls2 : p.classes.getD i 0 < vertebrae_classes.length :=
      hcls _ (getD_mem _ _ hic _)
    exact ⟨maskrcnn_detection_at_ok p i hib (by omega) hic (by omega) hbox2 hcls2,
           yolo_detection_at_ok p i hib (by omega) hic (by omega) hbox2 hcls2⟩
  refine ⟨(List.range p.num_detections).map (MaskRCNNModel.expected_at p),
          (List.range p.num_detections).map (YOLOModel.expected_at p),
          ?_, ?_, by simp, by simp, ?_⟩
  · exact formatRange_ok _ _ _ fun i hi => (hper i (List.mem_range.mp hi)).1
  · exact formatRange_ok _ _ _ fun i hi => (hper i (List.mem_range.mp hi)).2
  · intro i hi
    rw [getD_map_range dfltDetection _ _ i hi, getD_map_range dfltDetection _ _ i hi]
    exact ⟨rfl, rfl, rfl, rfl, rfl, rfl, rfl, rfl⟩

/-- Witness for C3 at the two-detection batch of the spec end-to-end
example (classes 0 and 5, i.e. T1 and T6). -/
theorem C3_format_fields_witness :
    ([[100, 100, 200, 200], [300, 300, 400, 400]] : List (List ℚ)).length = 2 ∧
    (∀ c ∈ ([0, 5] : List Nat), c < vertebrae_classes.length) ∧
    ∃ ds ds2,
      MaskRCNNModel.format_detections
        ⟨[[100, 100, 200, 200], [300, 300, 400, 400]], [19/20, 87/100], [0, 5],
         [[[true, false], [false, true]], [[false, false], [true, true]]], 2⟩ = .ok ds ∧
      YOLOModel.format_detections
        ⟨[[100, 100, 200, 200], [300, 300, 400, 400]], [19/20, 87/100], [0, 5],
         [[[true, false], [false, true]], [[false, false], [true, true]]], 2⟩ = .ok ds2 ∧
      ds.length = 2 ∧
      ds2.length = 2 ∧
      ∀ i < 2,
        (ds.getD i dfltDetection).class_name =
            vertebrae_classes.getD (([0, 5] : List Nat).getD i 0) "" ∧
        (ds.getD i dfltDetection).score = ([19/20, 87/100] : List ℚ).getD i 0 ∧
        (ds.getD i dfltDetection).class_id = ([0, 5] : List Nat).getD i 0 ∧
        (ds.getD i dfltDetection).bbox =
            ⟨(([[100, 100, 200, 200], [300, 300, 400, 400]] : List (List ℚ)).getD i []).getD 0 0,
             (([[100, 100, 200, 200], [300, 300, 400, 400]] : List (List ℚ)).getD i []).getD 1 0,
             (([[100, 100, 200, 200], [300, 300, 400, 400]] : List (List ℚ)).getD i []).getD 2 0,
             (([[100, 100, 200, 200], [300, 300, 400, 400]] : List (List ℚ)).getD i []).getD 3 0⟩ ∧
        (ds2.getD i dfltDetection).class_name =
            vertebrae_classes.getD (([0, 5] : List Nat).getD i 0) "" ∧
        (ds2.getD i dfltDetection).score = ([19/20, 87/100] : List ℚ).getD i 0 ∧
        (ds2.getD i dfltDetection).class_id = ([0, 5] : List Nat).getD i 0 ∧
        (ds2.getD i dfltDetection).bbox =
            ⟨(([[100, 100, 200, 200], [300, 300, 400, 400]] : List (List ℚ)).getD i []).getD 0 0,
             (([[100, 100, 200, 200], [300, 300, 400, 400]] : List (List ℚ)).getD i []).getD 1 0,
             (([[100, 100, 200, 200], [300, 300, 400, 400]] : List (List ℚ)).getD i []).getD 2 0,
             (([[100, 100, 200, 200], [300, 300, 400, 400]] : List (List ℚ)).getD i []).getD 3 0⟩ :=
  ⟨by decide, by decide,
   C3_format_fields
     ⟨[[100, 100, 200, 200], [300, 300, 400, 400]], [19/20, 87/100], [0, 5],
      [[[true, false], [false, true]], [[false, false], [true, true]]], 2⟩
     (by decide) (by decide) (by decide) (by decide) (by decide) (by decide)⟩

/-- C4: on a batch whose parallel sequences are well-formed but where some
index carries a class index at or beyond the class-table length, both
`format_detections` variants fail with the class-index-out-of-range error
(the spec `ClassIndexOutOfRangeError`) and return no detection list. -/
theorem C4_class_index_out_of_range (p : Predictions)
    (hb : p.boxes.length = p.num_detections)
    (hs : p.scores.length = p.num_detections)
    (hc : p.classes.length = p.num_detections)
    (hm : p.masks.length = p.num_detections)
    (hbox : ∀ b ∈ p.boxes, 4 ≤ b.length)
    (hex : ∃ i < p.num_detections, vertebrae_classes.length ≤ p.classes.getD i 0) :
    MaskRCNNModel.format_detections p = .error .classIndexOutOfRange ∧
    YOLOModel.format_detections p = .error .classIndexOutOfRange := by
  have hbounds : ∀ i < p.num_detections,
      i < p.boxes.length ∧ i < p.scores.length ∧ i < p.classes.length ∧
      i < p.masks.length := by
    intro i hi
    omega
  constructor
  · apply formatRange_error _ (MaskRCNNModel.expected_at p)
    · intro i hi
      rw [List.mem_range] at hi
      obtain ⟨h1, h2, h3, h4⟩ := hbounds i hi
      by_cases hcl : p.classes.getD i 0 < vertebrae_classes.length
      · exact Or.inl (maskrcnn_detection_at_ok p i h1 h2 h3 h4
          (hbox _ (getD_mem _ _ h1 _)) hcl)
      · exact Or.inr (maskrcnn_detection_at_oob p i h1 h2 h3 h4 (by omega))
    · obtain ⟨i, hi, hge⟩ := hex
      obtain ⟨h1, h2, h3, h4⟩ := hbounds i hi
      exact ⟨i, List.mem_range.mpr hi,
        maskrcnn_detection_at_oob p i h1 h2 h3 h4 hge⟩
  · apply formatRange_error _ (YOLOModel.expected_at p)
    · intro i hi
      rw [List.mem_range] at hi
      obtain ⟨h1, h2, h3, h4⟩ := hbounds i hi
      by_cases hcl : p.classes.getD i 0 < vertebrae_classes.length
      · exact Or.inl (yolo_detection_at_ok p i h1 h2 h3 h4
          (hbox _ (getD_mem _ _ h1 _)) hcl)
      · exact Or.inr (yolo_detection_at_oob p i h1 h2 h3 h4 (by omega))
    · obtain ⟨i, hi, hge⟩ := hex
      obtain ⟨h1, h2, h3, h4⟩ := hbounds i hi
      exact ⟨i, List.mem_range.mpr hi,
        yolo_detection_at_oob p i h1 h2 h3 h4 hge⟩

/-- Witness for C4 at a one-detection batch whose class index 17 is just
beyond the 17-entry class table. -/
theorem C4_class_index_out_of_range_witness :
    (∃ i < 1, vertebrae_classes.length ≤ ([17] : List Nat).getD i 0) ∧
    MaskRCNNModel.format_detections ⟨[[0, 0, 1, 1]], [1/2], [17], [[[true]]], 1⟩ =
      .error .classIndexOutOfRange ∧
    YOLOModel.format_detections ⟨[[0, 0, 1, 1]], [1/2], [17], [[[true]]], 1⟩ =
      .error .classIndexOutOfRange :=
  ⟨⟨0, by decide, by decide⟩,
   (C4_class_index_out_of_range ⟨[[0, 0, 1, 1]], [1/2], [17], [[[true]]], 1⟩
     (by decide) (by decide) (by decide) (by decide) (by decide)
     ⟨0, by decide, by decide⟩).1,
   (C4_class_index_out_of_range ⟨[[0, 0, 1, 1]], [1/2], [17], [[[true]]], 1⟩
     (by decide) (by decide) (by decide) (by decide) (by decide)
     ⟨0, by decide, by decide⟩).2⟩

/-! ### Visualization renderer lemmas -/

theorem length_mapIdxFrom {α β : Type} (f : Nat → α → β) : ∀ (k : Nat) (l : List α),
    (mapIdxFrom f k l).length = l.length := by
  intro k l
  induction l generalizing k with
  | nil => rfl
  | cons a as ih => simp [mapIdxFrom, ih]

theorem mem_mapIdxFrom {α β : Type} (f : Nat → α → β) : ∀ (k : Nat) (l : List α) (b : β),
    b ∈ mapIdxFrom f k l → ∃ k2 a, a ∈ l ∧ b = f k2 a := by
  intro k l
  induction l generalizing k with
  | nil =>
    intro b hb
    simp [mapIdxFrom] at hb
  | cons a as ih =>
    intro b hb
    rcases List.mem_cons.mp hb with rfl | hmem
    · exact ⟨k, a, by simp, rfl⟩
    · obtain ⟨k2, a2, ha2, rfl⟩ := ih (k + 1) b hmem
      exact ⟨k2, a2, by simp [ha2], rfl⟩

theorem mapGrid_dims (f : Nat → Nat → Color → Color) (img : ImageG) (h w : Nat)
    (hd : dimsEq img h w) : dimsEq (mapGrid f img) h w := by
  constructor
  · rw [mapGrid, length_mapIdxFrom]
    exact hd.1
  · intro r hr
    obtain ⟨i, row, hrow, rfl⟩ := mem_mapIdxFrom _ _ _ _ hr
    rw [length_mapIdxFrom]
    exact hd.2 row hrow

theorem mem_zipWith_ex {α β γ : Type} (f : α → β → γ) : ∀ (a : List α) (b : List β) (c : γ),
    c ∈ List.zipWith f a b → ∃ x y, x ∈ a ∧ y ∈ b ∧ c = f x y := by
  intro a
  induction a with
  | nil =>
    intro b c hc
    simp at hc
  | cons x xs ih =>
    intro b c hc
    cases b with
    | nil => simp at hc
    | cons y ys =>
      rw [List.zipWith_cons_cons] at hc
      rcases List.mem_cons.mp hc with rfl | hmem
      · exact ⟨x, y, by simp, by simp, rfl⟩
      · obtain ⟨x2, y2, hx2, hy2, rfl⟩ := ih ys c hmem
        exact ⟨x2, y2, by simp [hx2], by simp [hy2], rfl⟩

theorem addWeighted_dims (h w : Nat) (a b : ImageG) (ha : dimsEq a h w)
    (hb : dimsEq b h w) : dimsEq (addWeighted a b) h w := by
  constructor
  · rw [addWeighted, List.length_zipWith, ha.1, hb.1, Nat.min_self]
  · intro row hrow
    obtain ⟨ra, rb, hra, hrb, rfl⟩ := mem_zipWith_ex _ _ _ _ hrow
    rw [List.length_zipWith, ha.2 ra hra, hb.2 rb hrb, Nat.min_self]

theorem drawOne_skip (colors : List (String × Color)) (thr : ℚ) (b : DrawBufs)
    (box : ℚ × ℚ × ℚ × ℚ) (mask : List (List Bool)) (score : ℚ) (cls : String)
    (h : score < thr) : drawOne colors thr b (box, mask, score, cls) = (b, none) := by
  simp [drawOne, h]

theorem drawOne_item (colors : List (String × Color)) (thr : ℚ) (b : DrawBufs)
    (box : ℚ × ℚ × ℚ × ℚ) (mask : List (List Bool)) (score : ℚ) (cls : String)
    (h : ¬ score < thr) :
    (drawOne colors thr b (box, mask, score, cls)).2 = some ⟨box, cls, score⟩ := by
  simp [drawOne, h]

theorem drawOne_image (colors : List (String × Color)) (thr : ℚ) (b : DrawBufs)
    (det : (ℚ × ℚ × ℚ × ℚ) × (List (List Bool)) × ℚ × String) :
    (drawOne colors thr b det).1.image = b.image := by
  rcases det with ⟨box, mask, score, cls⟩
  by_cases h : score < thr
  · rw [drawOne_skip _ _ _ _ _ _ _ h]
  · simp [drawOne, h]

theorem drawOne_annotated_dims (colors : List (String × Color)) (thr : ℚ) (b : DrawBufs)
    (det : (ℚ × ℚ × ℚ × ℚ) × (List (List Bool)) × ℚ × String) (h w : Nat)
    (hd : dimsEq b.annotated h w) :
    dimsEq (drawOne colors thr b det).1.annotated h w := by
  rcases det with ⟨box, mask, score, cls⟩
  by_cases hlt : score < thr
  · rw [drawOne_skip _ _ _ _ _ _ _ hlt]
    exact hd
  · simp only [drawOne, if_neg hlt]
    apply mapGrid_dims
    apply mapGrid_dims
    apply mapGrid_dims
    exact addWeighted_dims h w _ _ hd (mapGrid_dims _ _ h w hd)

theorem drawLoop_image (colors : List (String × Color)) (thr : ℚ) :
    ∀ (l : List ((ℚ × ℚ × ℚ × ℚ) × (List (List Bool)) × ℚ × String)) (b : DrawBufs),
    (drawLoop colors thr b l).1.image = b.image := by
  intro l
  induction l with
  | nil => intro b; rfl
  | cons d ds ih =>
    intro b
    simp only [drawLoop]
    rw [ih]
    exact drawOne_image colors thr b d

theorem drawLoop_annotated_dims (colors : List (String × Color)) (thr : ℚ) (h w : Nat) :
    ∀ (l : List ((ℚ × ℚ × ℚ × ℚ) × (List (List Bool)) × ℚ × String)) (b : DrawBufs),
    dimsEq b.annotated h w → dimsEq (drawLoop colors thr b l).1.annotated h w := by
  intro l
  induction l with
  | nil => intro b hb; exact hb
  | cons d ds ih =>
    intro b hb
    simp only [drawLoop]
    exact ih _ (drawOne_annotated_dims colors thr b d h w hb)

theorem drawLoop_items (colors : List (String × Color)) (thr : ℚ) :
    ∀ (l : List ((ℚ × ℚ × ℚ × ℚ) × (List (List Bool)) × ℚ × String)) (b : DrawBufs),
    (drawLoop colors thr b l).2 =
      (l.filter fun d => decide (thr ≤ drawInputScore d)).map drawInputItem := by
  intro l
  induction l with
  | nil => intro b; rfl
  | cons d ds ih =>
    intro b
    rcases d with ⟨box, mask, score, cls⟩
    by_cases hlt : score < thr
    · simp only [drawLoop, drawOne_skip colors thr b box mask score cls hlt]
      rw [ih]
      rw [List.filter_cons]
      have : decide (thr ≤ drawInputScore (box, mask, score, cls)) = false := by
        simp [drawInputScore]
        exact hlt
      rw [this]
      simp
    · simp only [drawLoop]
      rw [drawOne_item colors thr b box mask score cls hlt, ih]
      rw [List.filter_cons]
      have : decide (thr ≤ drawInputScore (box, mask, score, cls)) = true := by
        simp [drawInputScore]
        exact not_lt.mp hlt
      rw [this]
      simp [drawInputItem]

/-- C6: detections with `score < score_threshold` are skipped silently and
contribute no mask overlay, rectangle or label (the loop state is
untouched and no drawn record is produced); the drawn records are exactly
the detections with `score ≥ threshold`, in order; and on two detections
with scores 0.95 and 0.3 at threshold 0.5, exactly one box/mask/label is
drawn while the output dimensions equal the input dimensions. -/
theorem C6_threshold_filter :
    (∀ (colors : List (String × Color)) (thr : ℚ) (b : DrawBufs)
       (box : ℚ × ℚ × ℚ × ℚ) (mask : List (List Bool)) (score : ℚ) (cls : String),
       score < thr → drawOne colors thr b (box, mask, score, cls) = (b, none)) ∧
    (∀ (colors : List (String × Color)) (thr : ℚ)
       (l : List ((ℚ × ℚ × ℚ × ℚ) × (List (List Bool)) × ℚ × String)) (b : DrawBufs),
       (drawLoop colors thr b l).2 =
         (l.filter fun d => decide (thr ≤ drawInputScore d)).map drawInputItem) ∧
    ((draw_predictions_on_image 0
        [[(0, 0, 0), (0, 0, 0)], [(0, 0, 0), (0, 0, 0)]]
        [(0, 0, 1, 1), (0, 0, 1, 1)]
        [[[true, false], [false, true]], [[true, true], [false, false]]]
        [19/20, 3/10] ["T1", "T2"] (1/2)).2.2 =
      [⟨(0, 0, 1, 1), "T1", 19/20⟩] ∧
     dimsEq (draw_predictions_on_image 0
        [[(0, 0, 0), (0, 0, 0)], [(0, 0, 0), (0, 0, 0)]]
        [(0, 0, 1, 1), (0, 0, 1, 1)]
        [[[true, false], [false, true]], [[true, true], [false, false]]]
        [19/20, 3/10] ["T1", "T2"] (1/2)).1 2 2) := by
  refine ⟨?_, ?_, ?_, ?_⟩
  · intro colors thr b box mask score cls h
    exact drawOne_skip colors thr b box mask score cls h
  · intro colors thr l b
    exact drawLoop_items colors thr l b
  · have h1 : decide ((1 : ℚ)/2 ≤ 19/20) = true := decide_eq_true (by norm_num)
    have h2 : decide ((1 : ℚ)/2 ≤ 3/10) = false := decide_eq_false (by norm_num)
    rw [show (draw_predictions_on_image 0
        [[(0, 0, 0), (0, 0, 0)], [(0, 0, 0), (0, 0, 0)]]
        [(0, 0, 1, 1), (0, 0, 1, 1)]
        [[[true, false], [false, true]], [[true, true], [false, false]]]
        [19/20, 3/10] ["T1", "T2"] (1/2)).2.2 =
      (drawLoop (classColors ["T1", "T2"]) (1/2)
        ⟨[[(0, 0, 0), (0, 0, 0)], [(0, 0, 0), (0, 0, 0)]],
         [[(0, 0, 0), (0, 0, 0)], [(0, 0, 0), (0, 0, 0)]]⟩
        [((0, 0, 1, 1), [[true, false], [false, true]], 19/20, "T1"),
         ((0, 0, 1, 1), [[true, true], [false, false]], 3/10, "T2")]).2 from rfl]
    rw [drawLoop_items]
    simp only [List.filter_cons, List.filter_nil, drawInputScore, h1, h2]
    simp [drawInputItem]
  · have himg : dimsEq [[((0 : Nat), (0 : Nat), (0 : Nat)), (0, 0, 0)],
        [(0, 0, 0), (0, 0, 0)]] 2 2 := by
      constructor
      · rfl
      · decide
    exact drawLoop_annotated_dims _ _ 2 2 _ _ himg

/-- Witness for C6 at a skipped detection with score 0.3 against
threshold 0.5. -/
theorem C6_threshold_filter_witness :
    ((3 : ℚ)/10 < 1/2) ∧
    drawOne [] (1/2) ⟨[], []⟩ ((0, 0, 1, 1), [[true]], 3/10, "T1") = (⟨[], []⟩, none) :=
  ⟨by norm_num,
   C6_threshold_filter.1 [] (1/2) ⟨[], []⟩ (0, 0, 1, 1) [[true]] (3/10) "T1" (by norm_num)⟩

/-- C7: the renderer returns an image of exactly the input height, width
and (by the pixel type) channel count, and the caller's input array is
unchanged after the call — the function works on a copy. -/
theorem C7_draw_preserves_input (rngIn : Rng) (image : ImageG)
    (boxes : List (ℚ × ℚ × ℚ × ℚ)) (masks : List (List (List Bool)))
    (scores : List ℚ) (classes : List String) (thr : ℚ) (h w : Nat)
    (hd : dimsEq image h w) :
    dimsEq (draw_predictions_on_image rngIn image boxes masks scores classes thr).1 h w ∧
    (draw_predictions_on_image rngIn image boxes masks scores classes thr).2.1 = image := by
  constructor
  · exact drawLoop_annotated_dims _ thr h w _ ⟨image, image⟩ hd
  · exact drawLoop_image _ thr _ ⟨image, image⟩

/-- Witness for C7 at a concrete 1×2 image with one above-threshold
detection. -/
theorem C7_draw_preserves_input_witness :
    dimsEq [[(5, 5, 5), (9, 9, 9)]] 1 2 ∧
    dimsEq (draw_predictions_on_image 7 [[(5, 5, 5), (9, 9, 9)]]
      [(0, 0, 1, 1)] [[[true, true]]] [9/10] ["L1"] (1/2)).1 1 2 ∧
    (draw_predictions_on_image 7 [[(5, 5, 5), (9, 9, 9)]]
      [(0, 0, 1, 1)] [[[true, true]]] [9/10] ["L1"] (1/2)).2.1 =
      [[(5, 5, 5), (9, 9, 9)]] :=
  ⟨⟨rfl, by decide⟩,
   (C7_draw_preserves_input 7 [[(5, 5, 5), (9, 9, 9)]]
     [(0, 0, 1, 1)] [[[true, true]]] [9/10] ["L1"] (1/2) 1 2 ⟨rfl, by decide⟩).1,
   (C7_draw_preserves_input 7 [[(5, 5, 5), (9, 9, 9)]]
     [(0, 0, 1, 1)] [[[true, true]]] [9/10] ["L1"] (1/2) 1 2 ⟨rfl, by decide⟩).2⟩

/-! ### Color assignment stability lemmas -/

theorem string_ext_of_data {s t : String} (h : s.data = t.data) : s = t := by
  cases s
  cases t
  simp_all

theorem mem_insertKey (s : String) : ∀ (l : List String) (x : String),
    x ∈ insertKey s l ↔ x = s ∨ x ∈ l := by
  intro l
  induction l with
  | nil =>
    intro x
    simp [insertKey]
  | cons t ts ih =>
    intro x
    by_cases h1 : s.data = t.data
    · rw [insertKey, if_pos h1]
      have hst : s = t := string_ext_of_data h1
      subst hst
      simp only [List.mem_cons]
      tauto
    · by_cases h2 : s.data < t.data
      · rw [insertKey, if_neg h1, if_pos h2, List.mem_cons]
      · rw [insertKey, if_neg h1, if_neg h2, List.mem_cons, ih x, List.mem_cons]
        tauto

theorem pairwise_insertKey (s : String) : ∀ (l : List String),
    l.Pairwise (fun a b => a.data < b.data) →
    (insertKey s l).Pairwise (fun a b => a.data < b.data) := by
  intro l
  induction l with
  | nil =>
    intro _
    simp [insertKey]
  | cons t ts ih =>
    intro hp
    rw [List.pairwise_cons] at hp
    obtain ⟨ht, hts⟩ := hp
    by_cases h1 : s.data = t.data
    · rw [insertKey, if_pos h1]
      exact List.pairwise_cons.mpr ⟨ht, hts⟩
    · by_cases h2 : s.data < t.data
      · rw [insertKey, if_neg h1, if_pos h2]
        refine List.pairwise_cons.mpr ⟨?_, List.pairwise_cons.mpr ⟨ht, hts⟩⟩
        intro x hx
        rcases List.mem_cons.mp hx with rfl | hmem
        · exact h2
        · exact lt_trans h2 (ht x hmem)
      · rw [insertKey, if_neg h1, if_neg h2]
        have hts2 : t.data < s.data := by
          rcases lt_trichotomy s.data t.data with h | h | h
          · exact absurd h h2
          · exact absurd h h1
          · exact h
        refine List.pairwise_cons.mpr ⟨?_, ih hts⟩
        intro x hx
        rcases (mem_insertKey s ts x).mp hx with rfl | hmem
        · exact hts2
        · exact ht x hmem

theorem nodup_of_pairwise_dataLt (l : List String)
    (h : l.Pairwise (fun a b => a.data < b.data)) : l.Nodup := by
  refine h.imp ?_
  intro a b hab heq
  subst heq
  exact lt_irrefl _ hab

theorem mem_pySet (l : List String) (x : String) : x ∈ pySet l ↔ x ∈ l := by
  induction l with
  | nil => simp [pySet]
  | cons c cs ih =>
    rw [show pySet (c :: cs) = insertKey c (pySet cs) from rfl,
        mem_insertKey c (pySet cs) x, ih, List.mem_cons]

theorem pairwise_pySet (l : List String) :
    (pySet l).Pairwise (fun a b => a.data < b.data) := by
  induction l with
  | nil => simp [pySet]
  | cons c cs ih =>
    exact pairwise_insertKey c (pySet cs) ih

theorem pySet_eq_of_toFinset (l1 l2 : List String) (h : l1.toFinset = l2.toFinset) :
    pySet l1 = pySet l2 := by
  have hn1 := nodup_of_pairwise_dataLt _ (pairwise_pySet l1)
  have hn2 := nodup_of_pairwise_dataLt _ (pairwise_pySet l2)
  have hfin : (pySet l1).toFinset = (pySet l2).toFinset := by
    ext x
    rw [List.mem_toFinset, List.mem_toFinset, mem_pySet, mem_pySet,
        ← List.mem_toFinset, ← List.mem_toFinset, h]
  have hperm := List.perm_of_nodup_nodup_toFinset_eq hn1 hn2 hfin
  letI : IsAntisymm String (fun a b => a.data < b.data) :=
    ⟨fun a b h1 h2 => absurd h2 (lt_asymm h1)⟩
  exact List.eq_of_perm_of_sorted hperm (pairwise_pySet l1) (pairwise_pySet l2)

/-- C8: the renderer is deterministic — its output does not depend on the
ambient state of the process-wide random generator, because the function
reseeds it with the fixed seed 42 (two calls with identical detection
inputs give byte-identical outputs whatever happened to the generator in
between) — and the color assigned to each distinct class label depends
only on the set of class labels, so it is stable across calls with the
same class-label set. -/
theorem C8_deterministic_colors :
    (∀ (r1 r2 : Rng) (image : ImageG) (boxes : List (ℚ × ℚ × ℚ × ℚ))
       (masks : List (List (List Bool))) (scores : List ℚ)
       (classes : List String) (thr : ℚ),
       draw_predictions_on_image r1 image boxes masks scores classes thr =
       draw_predictions_on_image r2 image boxes masks scores classes thr) ∧
    (∀ (cl1 cl2 : List String), cl1.toFinset = cl2.toFinset →
       classColors cl1 = classColors cl2) := by
  constructor
  · intro r1 r2 image boxes masks scores classes thr
    rfl
  · intro cl1 cl2 h
    rw [classColors, classColors, pySet_eq_of_toFinset cl1 cl2 h]

/-- Witness for C8 on two different class-label lists with the same
label set. -/
theorem C8_deterministic_colors_witness :
    ((["T1", "T2"] : List String).toFinset = (["T2", "T1", "T1"] : List String).toFinset) ∧
    classColors ["T1", "T2"] = classColors ["T2", "T1", "T1"] :=
  ⟨by decide, C8_deterministic_colors.2 ["T1", "T2"] ["T2", "T1", "T1"] (by decide)⟩

/-! ### Model factory initialization -/

/-- C9, failing-input evaluation: `ModelFactory` guards initialization
only with the plain `_initialized` flag and no lock, so two concurrent
first callers can both observe the unset flag and each run both model
loads — the schedule below makes every `load_model` run twice, refuting
single-flight.  A second sequential call after a completed first call
performs no further loads (the flag makes sequential calls idempotent). -/
theorem C9_unlocked_double_load :
    (runSched factoryStart [false, true, false, false, false, true, true, true]).st =
      ⟨true, 2, 2⟩ ∧
    initModelsCall (initModelsCall ⟨false, 0, 0⟩) = ⟨true, 1, 1⟩ := by
  constructor <;> rfl

/-! ### HTTP handler guards -/

/-- C10: for both `POST /predict` and `POST /predict/visualize`, an upload
with an empty body is rejected with HTTP 400 and detail
"Empty file uploaded", and the empty attempted-operations trace shows this
happens before any image decoding, model resolution or inference. -/
theorem C10_empty_upload_rejected :
    (∀ (modelParam : Option String) (loadImage : List Nat → Except String ImageG)
       (resolveModel : Option String → Except String Nat)
       (runInfer : Nat → ImageG → Predictions)
       (formatFn : Nat → Predictions → Except FormatError (List DetectionOut)),
       predict [] modelParam loadImage resolveModel runInfer formatFn =
         (.error ⟨400, "Empty file uploaded"⟩, [])) ∧
    (∀ (rngIn : Rng) (modelParam : Option String)
       (loadImage : List Nat → Except String ImageG)
       (resolveModel : Option String → Except String Nat)
       (runInfer : Nat → ImageG → Predictions) (thr : ℚ),
       predict_visualize rngIn [] modelParam loadImage resolveModel runInfer thr =
         (.error ⟨400, "Empty file uploaded"⟩, [])) := by
  constructor
  · intro _ _ _ _ _
    rfl
  · intro _ _ _ _ _ _
    rfl

end Vertebrae
